import Mathlib

/-!
Shallow embedding of the dynamic route scoring and selection engine of
`backend/dynamic_route_optimized.py` (with parallel copies of the pure
helpers in `backend/core/dynamic_router.py`).  Coordinates are pairs of
real numbers (latitude, longitude in degrees).  The external HTTP
lookups (weather penalty at a midpoint, elevation map for the sampled
points) are modelled as oracle parameters, exactly where the Python code
calls `fetch_weather` / `fetch_elevations_sampled`; everything else is a
direct translation of the source.
-/

namespace SmartConvoy

open scoped Classical

/-- A coordinate: latitude and longitude in degrees (a Python tuple). -/
abbrev Pt := ℝ × ℝ

/-- Translation of Python `math.radians`. -/
noncomputable def radians (x : ℝ) : ℝ := x * Real.pi / 180

/-- Translation of Python `math.degrees`. -/
noncomputable def degrees (x : ℝ) : ℝ := x * 180 / Real.pi

/-- Translation of `haversine_km` (dynamic_route_optimized.py, lines 145-150):
great-circle distance in kilometres, Earth radius 6371.0 km. -/
noncomputable def haversine_km (lat1 lon1 lat2 lon2 : ℝ) : ℝ :=
  let R : ℝ := 6371.0
  let phi1 := radians lat1
  let phi2 := radians lat2
  let dphi := radians (lat2 - lat1)
  let dlambda := radians (lon2 - lon1)
  let a := Real.sin (dphi / 2) ^ 2 +
    Real.cos phi1 * Real.cos phi2 * Real.sin (dlambda / 2) ^ 2
  R * 2 * Real.arcsin (Real.sqrt a)

/-- Translation of `interpolate_point` (lines 152-154): linear interpolation
of latitude and longitude, `t` in `[0,1]`. -/
def interpolate_point (lat1 lon1 lat2 lon2 t : ℝ) : Pt :=
  (lat1 + (lat2 - lat1) * t, lon1 + (lon2 - lon1) * t)

/-- Length in metres of the segment from `a` to `b`: the inline expression
`seg_m = haversine_km(...) * 1000.0` of `densify_path` (lines 164-165). -/
noncomputable def segM (a b : Pt) : ℝ := haversine_km a.1 a.2 b.1 b.2 * 1000.0

/-- The inline expression `steps = max(1, int(seg_m // sample_m))` of
`densify_path` (line 168). -/
noncomputable def stepsFor (a b : Pt) (sample_m : ℝ) : ℕ :=
  (max 1 ⌊segM a b / sample_m⌋).toNat

/-- The points appended by the inner loop of `densify_path` (lines 166-172)
for one consecutive input pair `a`, `b`: nothing when `seg_m <= 0`
(the `continue` branch), otherwise the `steps` interpolated points at
`t = s/(steps+1)`, `s = 1..steps`. -/
noncomputable def insertedPoints (a b : Pt) (sample_m : ℝ) : List Pt :=
  if segM a b ≤ 0 then []
  else (List.range (stepsFor a b sample_m)).map
    (fun s : ℕ => interpolate_point a.1 a.2 b.1 b.2
      (((s : ℝ) + 1) / ((stepsFor a b sample_m : ℝ) + 1)))

/-- The outer loop of `densify_path` (lines 161-172): for each consecutive
pair, append the left endpoint and then the inserted points. -/
noncomputable def densifyAux (sample_m : ℝ) : List Pt → List Pt
  | [] => []
  | [_] => []
  | a :: b :: rest => (a :: insertedPoints a b sample_m) ++ densifyAux sample_m (b :: rest)

/-- Translation of `densify_path` (lines 156-174): the loop output followed
by the final `out.append(latlon[-1])`. -/
noncomputable def densify_path (latlon : List Pt) (sample_m : ℝ) : List Pt :=
  match latlon with
  | [] => []
  | x :: xs => densifyAux sample_m (x :: xs) ++ [xs.getLastD x]

/-- Translation of Python `range(0, stop, step)` (for `step > 0`): the
multiples of `step` below `stop`. -/
def pyRange (stop step : ℕ) : List ℕ :=
  (List.range ((stop + step - 1) / step)).map (fun i => i * step)

/-- Translation of `sample_route_points` (lines 176-187).  The function only
uses indexing, length and membership of its input, so it is stated
polymorphically; the engine applies it at `α = Pt`. -/
def sample_route_points {α : Type} [DecidableEq α] [Inhabited α]
    (densified : List α) (max_samples : ℕ) : List α :=
  if densified.length ≤ max_samples then densified
  else
    let step := densified.length / max_samples
    let sampled := (pyRange densified.length step).map (fun i => densified.getD i default)
    if densified.getLastD default ∈ sampled then sampled
    else sampled ++ [densified.getLastD default]

/-- Translation of `slope_penalty_from_elevations` (lines 272-285). -/
noncomputable def slope_penalty_from_elevations
    (elev1 elev2 : Option ℝ) (dist_m : ℝ) : ℝ :=
  match elev1, elev2 with
  | some e1, some e2 =>
    if dist_m ≤ 0 then 0
    else
      let slope := |e2 - e1| / dist_m
      let slope_deg := if 0 ≤ slope then degrees (Real.arctan slope) else 0
      if 12 ≤ slope_deg then 500.0
      else if 8 ≤ slope_deg then 250.0
      else if 4 ≤ slope_deg then 100.0
      else 0.0
  | _, _ => 0.0

/-- Default of the environment variable `CLOSURE_RADIUS_KM` (line 26). -/
noncomputable def CLOSURE_RADIUS_KM : ℝ := 1.0

/-- Default of the environment variable `SAMPLE_DISTANCE_M` (line 27). -/
noncomputable def SAMPLE_DISTANCE_M : ℝ := 500.0

/-- Translation of `manual_closure_penalty` (lines 287-295): 1200 when some
supplied closure is within `CLOSURE_RADIUS_KM`, else 0 (the early return
over the loop yields the same value). -/
noncomputable def manual_closure_penalty (lat lon : ℝ) (closures : List Pt) : ℝ :=
  if ∃ c ∈ closures, haversine_km lat lon c.1 c.2 ≤ CLOSURE_RADIUS_KM then 1200.0 else 0.0

/-- A row of the risk-zone table (`load_risk_zones`, lines 81-102). -/
structure RiskZone where
  riskzone_id : String
  name : String
  center_lat : ℝ
  center_lon : ℝ
  radius_km : ℝ
  risk_level : String

/-- The record appended to `matched` in `risk_penalty_at_point` (line 125). -/
structure ZoneMatch where
  id : String
  name : String
  level : String

/-- The per-level penalty branch of `risk_penalty_at_point` (lines 117-123). -/
noncomputable def levelPenaltyOf (lvl : String) : ℝ :=
  if lvl = "high" then 1200.0 else if lvl = "medium" then 300.0 else 50.0

/-- Translation of `risk_penalty_at_point` (lines 107-128): accumulated
penalty and the matched zones, in table order.  The zone table (the module
global `RISK_ZONES`) is passed explicitly. -/
noncomputable def risk_penalty_at_point (zones : List RiskZone) (lat lon : ℝ) :
    ℝ × List ZoneMatch :=
  match zones with
  | [] => (0, [])
  | z :: rest =>
    let r := risk_penalty_at_point rest lat lon
    if haversine_km lat lon z.center_lat z.center_lon ≤ z.radius_km then
      (levelPenaltyOf z.risk_level + r.1, ⟨z.riskzone_id, z.name, z.risk_level⟩ :: r.2)
    else r

/-- Midpoint of segment `i` of the densified path (lines 375, 379, 391). -/
noncomputable def midPt (d : List Pt) (i : ℕ) : Pt :=
  (((d.getD i default).1 + (d.getD (i+1) default).1) / 2,
   ((d.getD i default).2 + (d.getD (i+1) default).2) / 2)

/-- Base cost of segment `i`: `dist_m * 0.01` (line 394). -/
noncomputable def segBase (d : List Pt) (i : ℕ) : ℝ :=
  segM (d.getD i default) (d.getD (i+1) default) * 0.01

/-- Weather cost of segment `i` (lines 372-379): the oracle `wpen` stands for
`weather_penalty_from_response(fetch_weather(mid))` (0 when the response is
absent), queried only when an endpoint index is in the sampled set. -/
noncomputable def segWeather (wpen : ℝ → ℝ → ℝ) (sampledIdx : List ℕ)
    (d : List Pt) (i : ℕ) : ℝ :=
  if i ∈ sampledIdx ∨ i + 1 ∈ sampledIdx then wpen (midPt d i).1 (midPt d i).2 else 0

/-- Slope cost of segment `i` (lines 381-384), with the elevation oracle
`emap` standing for the dictionary returned by `fetch_elevations_sampled`. -/
noncomputable def segSlope (emap : ℕ → Option ℝ) (d : List Pt) (i : ℕ) : ℝ :=
  slope_penalty_from_elevations (emap i) (emap (i+1))
    (segM (d.getD i default) (d.getD (i+1) default))

/-- Closure cost of segment `i` (lines 386-389): the max of the two endpoint
penalties. -/
noncomputable def segClosure (closures : List Pt) (d : List Pt) (i : ℕ) : ℝ :=
  max (manual_closure_penalty (d.getD i default).1 (d.getD i default).2 closures)
      (manual_closure_penalty (d.getD (i+1) default).1 (d.getD (i+1) default).2 closures)

/-- Risk cost of segment `i` (lines 395-397): penalty at the midpoint. -/
noncomputable def segRisk (zones : List RiskZone) (d : List Pt) (i : ℕ) : ℝ :=
  (risk_penalty_at_point zones (midPt d i).1 (midPt d i).2).1

/-- Total cost of segment `i`: `seg_cost` (line 402). -/
noncomputable def segCost (wpen : ℝ → ℝ → ℝ) (emap : ℕ → Option ℝ)
    (zones : List RiskZone) (closures : List Pt) (sampledIdx : List ℕ)
    (d : List Pt) (i : ℕ) : ℝ :=
  segBase d i + segWeather wpen sampledIdx d i + segSlope emap d i +
    segClosure closures d i + segRisk zones d i

/-- The list comprehension `sampled_indices` (line 356). -/
noncomputable def sampledIndices (d sampled : List Pt) : List ℕ :=
  sampled.map (fun p => if p ∈ d then d.indexOf p else 0)

/-- Result dictionary of `score_route_option` (lines 405-410). -/
structure ScoreResult where
  total_score : ℝ
  closed_segments : List Pt
  risk_hits : List (Pt × ZoneMatch)
  densified_len : ℕ

/-- Translation of `score_route_option` (lines 344-410). -/
noncomputable def score_route_option (wpen : ℝ → ℝ → ℝ) (emap : ℕ → Option ℝ)
    (zones : List RiskZone) (route_coords : List Pt) (closures : List Pt) :
    ScoreResult :=
  let densified := densify_path route_coords SAMPLE_DISTANCE_M
  let sampled := sample_route_points densified 10
  let sIdx := sampledIndices densified sampled
  let segs := List.range (densified.length - 1)
  { total_score :=
      segs.foldl (fun acc i => acc + segCost wpen emap zones closures sIdx densified i) 0
        + 0.0001
    closed_segments :=
      segs.filterMap (fun i =>
        if 0 < segClosure closures densified i then some (midPt densified i) else none)
    risk_hits :=
      segs.flatMap (fun i =>
        (risk_penalty_at_point zones (midPt densified i).1 (midPt densified i).2).2.map
          (fun m => (midPt densified i, m)))
    densified_len := densified.length }

/-- The non-closure part of the score of a candidate: base cost plus weather,
slope and risk contributions of every densified segment. -/
noncomputable def nonClosureSum (wpen : ℝ → ℝ → ℝ) (emap : ℕ → Option ℝ)
    (zones : List RiskZone) (route_coords : List Pt) : ℝ :=
  let d := densify_path route_coords SAMPLE_DISTANCE_M
  let sIdx := sampledIndices d (sample_route_points d 10)
  ((List.range (d.length - 1)).map (fun i =>
    segBase d i + segWeather wpen sIdx d i + segSlope emap d i + segRisk zones d i)).sum

/-- The closure part of the score of a candidate. -/
noncomputable def closureSum (closures : List Pt) (route_coords : List Pt) : ℝ :=
  let d := densify_path route_coords SAMPLE_DISTANCE_M
  ((List.range (d.length - 1)).map (fun i => segClosure closures d i)).sum

/-- A decoded provider route (`routes` entries in `dynamic_reroute_json`):
geometry already decoded from the polyline, `[]` modelling a geometry that
fails to decode (`coords_polyline_to_latlon` returns `[]` on error). -/
structure Candidate where
  geometry : List Pt
  distance : ℝ
  duration : ℝ

/-- Translation of the synthetic straight-line fallback candidate built in
`dynamic_reroute_json` (lines 450-463): 50 interpolation steps, crude
distance and duration estimates. -/
noncomputable def synthetic_route (start_lat start_lon end_lat end_lon : ℝ) : Candidate :=
  let steps : ℕ := 50
  let coords := (List.range (steps + 1)).map (fun i : ℕ =>
    (start_lat + (end_lat - start_lat) * ((i : ℝ) / (steps : ℝ)),
     start_lon + (end_lon - start_lon) * ((i : ℝ) / (steps : ℝ))))
  let total_dist_km := haversine_km start_lat start_lon end_lat end_lon
  let total_dist_m := total_dist_km * 1000.0
  let est_duration_s := max 1.0 (total_dist_m / 15.0)
  ⟨coords, total_dist_m, est_duration_s⟩

/-- The `if not routes:` fallback gate of `dynamic_reroute_json`
(lines 447-463). -/
noncomputable def routesOrFallback (routes : List Candidate)
    (start_lat start_lon end_lat end_lon : ℝ) : List Candidate :=
  if routes.isEmpty then [synthetic_route start_lat start_lon end_lat end_lon]
  else routes

/-- The response dictionary of `dynamic_reroute_json` (lines 497-507). -/
structure RerouteResponse where
  original_route : List Pt
  chosen_route : List Pt
  closures : List Pt
  closed_segments : List Pt
  risk_hits : List (Pt × ZoneMatch)
  eta_seconds : ℝ
  distance_m : ℝ
  score : ℝ

/-- The closure-string parsing loop of `dynamic_reroute_json` (lines 429-439):
each `;`-separated entry either parses to a latitude/longitude pair (`some`)
or raises inside the `try` and is skipped by the `except: continue`. -/
def parse_closures (entries : List (Option Pt)) : List Pt :=
  entries.filterMap id

/-- Translation of the endpoint `dynamic_reroute_json` (lines 415-507, without
the optional AI-insight block): parse closures, apply the fallback gate,
score every candidate with a decodable geometry, pick the minimum score
(first wins on ties, matching the stable sort) and build the response. -/
noncomputable def dynamic_reroute_json (wpen : ℝ → ℝ → ℝ) (emap : ℕ → Option ℝ)
    (zones : List RiskZone) (entries : List (Option Pt))
    (providerRoutes : List Candidate)
    (start_lat start_lon end_lat end_lon : ℝ) : Except String RerouteResponse :=
  let closures := parse_closures entries
  let routes := routesOrFallback providerRoutes start_lat start_lon end_lat end_lon
  let scored := routes.filterMap (fun r =>
    if r.geometry = [] then none
    else some (r, score_route_option wpen emap zones r.geometry closures))
  match scored with
  | [] => Except.error "no valid route options"
  | s0 :: rest =>
    let best := rest.foldl (fun b x => if x.2.total_score < b.2.total_score then x else b) s0
    let original := (routes.headD ⟨[], 0, 0⟩).geometry
    Except.ok
      { original_route := original
        chosen_route := best.1.geometry
        closures := closures
        closed_segments := best.2.closed_segments
        risk_hits := best.2.risk_hits
        eta_seconds := best.1.duration
        distance_m := best.1.distance
        score := best.2.total_score }

/-! ### Geodesy helper lemmas -/

theorem haversine_self (lat lon : ℝ) : haversine_km lat lon lat lon = 0 := by
  simp [haversine_km, radians]

theorem haversine_nonneg (lat1 lon1 lat2 lon2 : ℝ) :
    0 ≤ haversine_km lat1 lon1 lat2 lon2 := by
  simp only [haversine_km, radians]
  have h : 0 ≤ Real.arcsin (Real.sqrt (Real.sin ((lat2 - lat1) * Real.pi / 180 / 2) ^ 2 +
      Real.cos (lat1 * Real.pi / 180) * Real.cos (lat2 * Real.pi / 180) *
      Real.sin ((lon2 - lon1) * Real.pi / 180 / 2) ^ 2)) :=
    Real.arcsin_nonneg.mpr (Real.sqrt_nonneg _)
  nlinarith

theorem haversine_comm (lat1 lon1 lat2 lon2 : ℝ) :
    haversine_km lat1 lon1 lat2 lon2 = haversine_km lat2 lon2 lat1 lon1 := by
  simp only [haversine_km, radians]
  have h : ∀ x y : ℝ, Real.sin ((x - y) * Real.pi / 180 / 2) ^ 2
      = Real.sin ((y - x) * Real.pi / 180 / 2) ^ 2 := by
    intro x y
    rw [show (x - y) * Real.pi / 180 / 2 = -((y - x) * Real.pi / 180 / 2) by ring,
      Real.sin_neg]
    ring
  rw [h lat2 lat1, h lon2 lon1,
    mul_comm (Real.cos (lat1 * Real.pi / 180)) (Real.cos (lat2 * Real.pi / 180))]

theorem haversine_pole : haversine_km 90 0 90 1 = 0 := by
  simp only [haversine_km, radians]
  rw [show ((90:ℝ) - 90) * Real.pi / 180 / 2 = 0 by ring,
    show (90:ℝ) * Real.pi / 180 = Real.pi / 2 by ring,
    Real.cos_pi_div_two, Real.sin_zero]
  norm_num

theorem arcsin_one_half : Real.arcsin (1/2) = Real.pi / 6 := by
  have hpi := Real.pi_pos
  rw [← Real.sin_pi_div_six, Real.arcsin_sin (by linarith) (by linarith)]

theorem sqrt_three_lt : Real.sqrt 3 < 1.74 :=
  (Real.sqrt_lt' (by norm_num)).mpr (by norm_num)

theorem sqrt_three_gt : (1.7:ℝ) < Real.sqrt 3 :=
  (Real.lt_sqrt (by norm_num)).mpr (by norm_num)

theorem arcsinA_gt : Real.sqrt 3 / 4 < Real.arcsin (Real.sqrt 3 / 4) := by
  have h1 : (0:ℝ) < Real.sqrt 3 / 4 := by
    have := sqrt_three_gt; linarith
  have h2 : Real.sqrt 3 / 4 ≤ 1 := by
    have := sqrt_three_lt; linarith
  have harc : 0 < Real.arcsin (Real.sqrt 3 / 4) := Real.arcsin_pos.mpr h1
  have hsin : Real.sin (Real.arcsin (Real.sqrt 3 / 4)) = Real.sqrt 3 / 4 :=
    Real.sin_arcsin (by linarith) h2
  have := Real.sin_lt harc
  rwa [hsin] at this

theorem arcsinA_lt : Real.arcsin (Real.sqrt 3 / 4) < Real.pi / 6 := by
  have h : Real.sqrt 3 / 4 < 1/2 := by
    have := sqrt_three_lt; linarith
  have hm : Real.arcsin (Real.sqrt 3 / 4) < Real.arcsin (1/2) := by
    apply Real.strictMonoOn_arcsin
    · constructor
      · have := sqrt_three_gt; norm_num; linarith
      · have := sqrt_three_lt; norm_num; linarith
    · constructor <;> norm_num
    · exact h
  rwa [arcsin_one_half] at hm

theorem hav_60_240 : haversine_km 60 0 60 240 = 12742 * Real.arcsin (Real.sqrt 3 / 4) := by
  simp only [haversine_km, radians]
  rw [show ((60:ℝ) - 60) * Real.pi / 180 / 2 = 0 by ring,
    show (60:ℝ) * Real.pi / 180 = Real.pi / 3 by ring,
    show ((240:ℝ) - 0) * Real.pi / 180 / 2 = Real.pi - Real.pi / 3 by ring,
    Real.sin_zero, Real.cos_pi_div_three, Real.sin_pi_sub, Real.sin_pi_div_three]
  rw [show (0:ℝ)^2 + 1/2 * (1/2) * (Real.sqrt 3 / 2)^2 = Real.sqrt 3 ^ 2 / 16 by ring,
    Real.sq_sqrt (by norm_num : (0:ℝ) ≤ 3),
    show (3:ℝ)/16 = 3 / 4^2 by norm_num,
    Real.sqrt_div (by norm_num : (0:ℝ) ≤ 3), Real.sqrt_sq (by norm_num : (0:ℝ) ≤ 4)]
  ring

theorem hav_60_120 : haversine_km 60 0 60 120 = 12742 * Real.arcsin (Real.sqrt 3 / 4) := by
  simp only [haversine_km, radians]
  rw [show ((60:ℝ) - 60) * Real.pi / 180 / 2 = 0 by ring,
    show (60:ℝ) * Real.pi / 180 = Real.pi / 3 by ring,
    show ((120:ℝ) - 0) * Real.pi / 180 / 2 = Real.pi / 3 by ring,
    Real.sin_zero, Real.cos_pi_div_three, Real.sin_pi_div_three]
  rw [show (0:ℝ)^2 + 1/2 * (1/2) * (Real.sqrt 3 / 2)^2 = Real.sqrt 3 ^ 2 / 16 by ring,
    Real.sq_sqrt (by norm_num : (0:ℝ) ≤ 3),
    show (3:ℝ)/16 = 3 / 4^2 by norm_num,
    Real.sqrt_div (by norm_num : (0:ℝ) ≤ 3), Real.sqrt_sq (by norm_num : (0:ℝ) ≤ 4)]
  ring

theorem hav_60_origin : haversine_km 60 0 0 0 = 12742 * (Real.pi / 6) := by
  simp only [haversine_km, radians]
  rw [show ((0:ℝ) - 60) * Real.pi / 180 / 2 = -(Real.pi / 6) by ring,
    show (60:ℝ) * Real.pi / 180 = Real.pi / 3 by ring,
    show ((0:ℝ) - 0) * Real.pi / 180 / 2 = 0 by ring,
    Real.sin_neg, Real.sin_pi_div_six, Real.sin_zero, Real.cos_pi_div_three]
  rw [show (-(1/2):ℝ)^2 + 1/2 * Real.cos (0 * Real.pi / 180) * 0^2 = (1/2)^2 by ring,
    Real.sqrt_sq (by norm_num : (0:ℝ) ≤ 1/2), arcsin_one_half]
  ring

/-! ### C8: haversine distance properties -/

/-- C8 counterexample: the claim `distance(a,b) == 0 iff a == b` fails on the
code.  Both `(90,0)` and `(90,1)` are at the north pole numerically; they are
distinct coordinate pairs whose haversine distance is exactly 0. -/
theorem c8_counterexample :
    haversine_km 90 0 90 1 = 0 ∧ ((90:ℝ), (0:ℝ)) ≠ ((90:ℝ), (1:ℝ)) := by
  refine ⟨haversine_pole, ?_⟩
  intro h
  have := congrArg Prod.snd h
  norm_num at this

/-- C8 (amended): `haversine_km` satisfies `distance(a,a) = 0` and is
symmetric; the reverse direction of `distance(a,b) = 0 iff a = b` does not
hold (see the counterexample). -/
theorem c8_haversine_reflexive_and_symmetric (lat1 lon1 lat2 lon2 : ℝ) :
    haversine_km lat1 lon1 lat1 lon1 = 0 ∧
    haversine_km lat1 lon1 lat2 lon2 = haversine_km lat2 lon2 lat1 lon1 :=
  ⟨haversine_self lat1 lon1, haversine_comm lat1 lon1 lat2 lon2⟩

/-! ### C10: slope penalty symmetry and value set -/

/-- C10: `slope_penalty_from_elevations` is symmetric in its two elevation
arguments, and its result is always one of 0, 100, 250, 500. -/
theorem c10_slope_penalty_symmetric_and_banded (elev1 elev2 : Option ℝ) (dist_m : ℝ) :
    slope_penalty_from_elevations elev1 elev2 dist_m
      = slope_penalty_from_elevations elev2 elev1 dist_m ∧
    (slope_penalty_from_elevations elev1 elev2 dist_m = 0 ∨
     slope_penalty_from_elevations elev1 elev2 dist_m = 100 ∨
     slope_penalty_from_elevations elev1 elev2 dist_m = 250 ∨
     slope_penalty_from_elevations elev1 elev2 dist_m = 500) := by
  constructor
  · cases elev1 <;> cases elev2 <;> simp only [slope_penalty_from_elevations]
    rw [abs_sub_comm]
  · cases elev1 with
    | none => left; simp [slope_penalty_from_elevations]; norm_num
    | some e1 =>
      cases elev2 with
      | none => left; simp [slope_penalty_from_elevations]; norm_num
      | some e2 =>
        simp only [slope_penalty_from_elevations]
        split_ifs <;> norm_num

/-! ### List helper lemmas -/

theorem getLastD_mem {α : Type} (l : List α) (d : α) (hl : l ≠ []) :
    l.getLastD d ∈ l := by
  cases l with
  | nil => simp at hl
  | cons x xs =>
    rw [List.getLastD_eq_getLast?, List.getLast?_eq_getLast _ hl]
    simp [List.getLast_mem]

theorem map_getD_range {α : Type} (l : List α) (d : α) :
    (List.range l.length).map (fun i => l.getD i d) = l := by
  induction l with
  | nil => simp
  | cons x xs ih =>
    rw [List.length_cons, List.range_succ_eq_map, List.map_cons, List.map_map]
    have hcomp : ((fun i => (x :: xs).getD i d) ∘ Nat.succ) = fun i => xs.getD i d := by
      funext i
      simp [List.getD_cons_succ]
    rw [List.getD_cons_zero, hcomp, ih]

theorem pyRange_one (n : ℕ) : pyRange n 1 = List.range n := by
  simp [pyRange]

theorem pyRange_length (n s : ℕ) : (pyRange n s).length = (n + s - 1) / s := by
  simp [pyRange]

/-! ### C1: sample_route_points -/

/-- C1 counterexample: with the default `max_samples = 10`, an 11-point input
is returned whole (length 11 > 10, refuting the length bound), and a
20-point input whose final point repeats its first point loses its final
point from the end of the output (the output ends in 18 while the input
ends in 0, refuting the last-element property). -/
theorem c1_counterexample :
    (sample_route_points (List.range 11) 10).length = 11 ∧
    10 < (sample_route_points (List.range 11) 10).length ∧
    (sample_route_points (List.range 19 ++ [0]) 10).getLastD 0 = 18 ∧
    (List.range 19 ++ [0]).getLastD 0 = 0 := by
  refine ⟨?_, ?_, ?_, ?_⟩ <;> decide

/-- C1 (amended): `sample_route_points` returns inputs with at most
`max_samples = 10` points unchanged; in general the input's last element is
always an element of the output (though not necessarily its last element),
and the output is never longer than the input (though its length can exceed
`max_samples`). -/
theorem c1_sample_route_points_bounds {α : Type} [DecidableEq α] [Inhabited α]
    (l : List α) (hl : l ≠ []) :
    (l.length ≤ 10 → sample_route_points l 10 = l) ∧
    l.getLastD default ∈ sample_route_points l 10 ∧
    (sample_route_points l 10).length ≤ l.length := by
  by_cases hle : l.length ≤ 10
  · rw [sample_route_points, if_pos hle]
    exact ⟨fun _ => rfl, getLastD_mem l default hl, le_refl _⟩
  · rw [sample_route_points, if_neg hle]
    simp only
    refine ⟨fun h => absurd h hle, ?_, ?_⟩
    · by_cases hmem : l.getLastD default ∈
        (pyRange l.length (l.length / 10)).map (fun i => l.getD i default)
      · rw [if_pos hmem]; exact hmem
      · rw [if_neg hmem]
        exact List.mem_append_right _ (List.mem_singleton.mpr rfl)
    · have hn : 11 ≤ l.length := by omega
      have hstep : 1 ≤ l.length / 10 := by omega
      by_cases h1 : l.length / 10 = 1
      · have hsampled : (pyRange l.length (l.length / 10)).map
            (fun i => l.getD i default) = l := by
          rw [h1, pyRange_one, map_getD_range]
        rw [hsampled, if_pos (getLastD_mem l default hl)]
      · have h2 : 2 ≤ l.length / 10 := by omega
        have hlen : ((pyRange l.length (l.length / 10)).map
            (fun i => l.getD i default)).length ≤ (l.length - 1) / 2 + 1 := by
          rw [List.length_map, pyRange_length]
          have he : l.length + l.length / 10 - 1 = (l.length - 1) + l.length / 10 := by
            omega
          rw [he, Nat.add_div_right _ (by omega : 0 < l.length / 10)]
          have := @Nat.div_le_div_left (l.length - 1) _ _ h2 (by norm_num)
          omega
        by_cases hmem : l.getLastD default ∈
          (pyRange l.length (l.length / 10)).map (fun i => l.getD i default)
        · rw [if_pos hmem]; omega
        · rw [if_neg hmem, List.length_append, List.length_singleton]; omega

/-- C1 witness: the amended statement at the concrete three-point input
`[5, 6, 7]`. -/
theorem c1_sample_route_points_bounds_witness :
    sample_route_points [5, 6, 7] 10 = [5, 6, 7] ∧
    ([5, 6, 7].getLastD 0 ∈ sample_route_points [5, 6, 7] 10) ∧
    (sample_route_points [5, 6, 7] 10).length ≤ 3 :=
  ⟨(c1_sample_route_points_bounds [5, 6, 7] (by decide)).1 (by decide),
   (c1_sample_route_points_bounds [5, 6, 7] (by decide)).2.1,
   (c1_sample_route_points_bounds [5, 6, 7] (by decide)).2.2⟩

/-! ### Numeric evaluation of a concrete densify input -/

theorem segM_60_240 : segM ((60:ℝ), (0:ℝ)) ((60:ℝ), (240:ℝ))
    = 12742000 * Real.arcsin (Real.sqrt 3 / 4) := by
  show haversine_km 60 0 60 240 * 1000.0 = _
  rw [hav_60_240]; ring

theorem segM_60_120 : segM ((60:ℝ), (0:ℝ)) ((60:ℝ), (120:ℝ))
    = 12742000 * Real.arcsin (Real.sqrt 3 / 4) := by
  show haversine_km 60 0 60 120 * 1000.0 = _
  rw [hav_60_120]; ring

theorem L_lb : (5415350:ℝ) < 12742000 * Real.arcsin (Real.sqrt 3 / 4) := by
  have hg := arcsinA_gt
  have hs3 := sqrt_three_gt
  nlinarith

theorem L_ub : 12742000 * Real.arcsin (Real.sqrt 3 / 4) < 6689550 := by
  have hl := arcsinA_lt
  have hpi : Real.pi < 3.15 := by
    have := Real.pi_lt_315
    norm_num at this ⊢
    linarith
  nlinarith

theorem segM_60_240_pos : 0 < segM ((60:ℝ), (0:ℝ)) ((60:ℝ), (240:ℝ)) := by
  rw [segM_60_240]
  have := L_lb
  linarith

theorem floor_60_240_5e6 : ⌊segM ((60:ℝ), (0:ℝ)) ((60:ℝ), (240:ℝ)) / 5000000⌋ = 1 := by
  rw [segM_60_240, Int.floor_eq_iff]
  have h1 := L_lb
  have h2 := L_ub
  constructor
  · push_cast
    rw [le_div_iff (by norm_num : (0:ℝ) < 5000000)]
    linarith
  · push_cast
    rw [div_lt_iff (by norm_num : (0:ℝ) < 5000000)]
    linarith

theorem stepsFor_60_240_5e6 : stepsFor ((60:ℝ), (0:ℝ)) ((60:ℝ), (240:ℝ)) 5000000 = 1 := by
  rw [stepsFor, floor_60_240_5e6]
  rfl

theorem insertedPoints_60_240_5e6 :
    insertedPoints ((60:ℝ), (0:ℝ)) ((60:ℝ), (240:ℝ)) 5000000
      = [((60:ℝ), (120:ℝ))] := by
  rw [insertedPoints, if_neg (not_le.mpr segM_60_240_pos), stepsFor_60_240_5e6]
  rw [show List.range 1 = [0] from rfl]
  norm_num [interpolate_point]

theorem densify_60_240 :
    densify_path [((60:ℝ), (0:ℝ)), ((60:ℝ), (240:ℝ))] 5000000
      = [((60:ℝ), (0:ℝ)), ((60:ℝ), (120:ℝ)), ((60:ℝ), (240:ℝ))] := by
  simp [densify_path, densifyAux, insertedPoints_60_240_5e6]

/-! ### Densify endpoint lemmas -/

theorem densify_head (l : List Pt) (s : ℝ) :
    (densify_path l s).head? = l.head? := by
  cases l with
  | nil => rfl
  | cons x xs =>
    cases xs with
    | nil => simp [densify_path, densifyAux]
    | cons b rest => simp [densify_path, densifyAux]

theorem densify_getLast (l : List Pt) (s : ℝ) :
    (densify_path l s).getLast? = l.getLast? := by
  cases l with
  | nil => rfl
  | cons x xs =>
    show (densifyAux s (x :: xs) ++ [xs.getLastD x]).getLast? = _
    rw [List.getLast?_concat, List.getLast?_cons, List.getLastD_eq_getLast?]

/-! ### C2: densify endpoints and the per-segment gap bound -/

/-- C2 counterexample: the input pair `(60,0)`, `(60,240)` consists of two
distinct points with positive segment length; one intermediate point is
inserted at `t = 1/2`, namely `(60,120)`, but the haversine distance from
`(60,0)` to `(60,120)` (in metres) strictly exceeds the spacing
`sample_m = 5000000`, so consecutive output points can be farther apart
than the spacing. -/
theorem c2_counterexample :
    densify_path [((60:ℝ), (0:ℝ)), ((60:ℝ), (240:ℝ))] 5000000
      = [((60:ℝ), (0:ℝ)), ((60:ℝ), (120:ℝ)), ((60:ℝ), (240:ℝ))] ∧
    ((60:ℝ), (0:ℝ)) ≠ ((60:ℝ), (240:ℝ)) ∧
    0 < segM ((60:ℝ), (0:ℝ)) ((60:ℝ), (240:ℝ)) ∧
    5000000 < segM ((60:ℝ), (0:ℝ)) ((60:ℝ), (120:ℝ)) := by
  refine ⟨densify_60_240, ?_, segM_60_240_pos, ?_⟩
  · intro h
    have := congrArg Prod.snd h
    norm_num at this
  · rw [segM_60_120]
    have := L_lb
    linarith

/-- C2 (amended): the densified output always starts and ends with the
input's first and last points; and for any consecutive pair with positive
segment length the segment's haversine length divided over its
`steps + 1` uniform parameter sub-intervals is strictly below `sample_m`.
The haversine distance between consecutive output points themselves can
nevertheless exceed `sample_m`, because interpolation is linear in
latitude/longitude while length is great-circle (see the counterexample). -/
theorem c2_densify_endpoints_and_mean_gap (l : List Pt) (s : ℝ) (a b : Pt)
    (hl : l ≠ []) (hs : 0 < s) (hab : 0 < segM a b) :
    (densify_path l s).head? = l.head? ∧
    (densify_path l s).getLast? = l.getLast? ∧
    segM a b / ((stepsFor a b s : ℝ) + 1) < s := by
  refine ⟨densify_head l s, densify_getLast l s, ?_⟩
  have hfloor : (0:ℤ) ≤ max 1 ⌊segM a b / s⌋ := le_trans (by norm_num) (le_max_left _ _)
  have hcast : ((stepsFor a b s : ℕ) : ℝ) = ((max 1 ⌊segM a b / s⌋ : ℤ) : ℝ) := by
    rw [stepsFor]
    exact_mod_cast congrArg (fun z : ℤ => (z : ℝ)) (Int.toNat_of_nonneg hfloor)
  have h1 : segM a b / s < ((stepsFor a b s : ℕ) : ℝ) + 1 := by
    rw [hcast]
    calc segM a b / s < (⌊segM a b / s⌋ : ℝ) + 1 := Int.lt_floor_add_one _
    _ ≤ ((max 1 ⌊segM a b / s⌋ : ℤ) : ℝ) + 1 := by
        have : (⌊segM a b / s⌋ : ℝ) ≤ ((max 1 ⌊segM a b / s⌋ : ℤ) : ℝ) := by
          exact_mod_cast le_max_right (1:ℤ) ⌊segM a b / s⌋
        linarith
  have hpos : (0:ℝ) < ((stepsFor a b s : ℕ) : ℝ) + 1 := by positivity
  rw [div_lt_iff hpos]
  rw [div_lt_iff hs] at h1
  linarith [mul_comm s (((stepsFor a b s : ℕ) : ℝ) + 1)]

/-- C2 witness: the amended statement at the one-point path `[(0,0)]`,
spacing 5000000, and the concrete positive-length pair `(60,0)`,
`(60,240)`. -/
theorem c2_densify_endpoints_and_mean_gap_witness :
    (densify_path [((0:ℝ), (0:ℝ))] 5000000).head? = [((0:ℝ), (0:ℝ))].head? ∧
    (densify_path [((0:ℝ), (0:ℝ))] 5000000).getLast? = [((0:ℝ), (0:ℝ))].getLast? ∧
    segM ((60:ℝ), (0:ℝ)) ((60:ℝ), (240:ℝ)) /
      ((stepsFor ((60:ℝ), (0:ℝ)) ((60:ℝ), (240:ℝ)) 5000000 : ℝ) + 1) < 5000000 :=
  c2_densify_endpoints_and_mean_gap [((0:ℝ), (0:ℝ))] 5000000
    ((60:ℝ), (0:ℝ)) ((60:ℝ), (240:ℝ))
    (by simp) (by norm_num) segM_60_240_pos

/-! ### C6: insertion counts in densify -/

/-- C6 counterexample: the pair `(60,0)`, `(60,240)` has positive segment
length at most `sample_m = 20000000`, yet one interpolated point is inserted
(`steps = max(1, floor(L/sample_m)) = max(1,0) = 1`), refuting the claim
that no points are inserted for positive segment lengths at most
`sample_m`. -/
theorem c6_counterexample :
    0 < segM ((60:ℝ), (0:ℝ)) ((60:ℝ), (240:ℝ)) ∧
    segM ((60:ℝ), (0:ℝ)) ((60:ℝ), (240:ℝ)) ≤ 20000000 ∧
    insertedPoints ((60:ℝ), (0:ℝ)) ((60:ℝ), (240:ℝ)) 20000000
      = [((60:ℝ), (120:ℝ))] := by
  have hle : segM ((60:ℝ), (0:ℝ)) ((60:ℝ), (240:ℝ)) ≤ 20000000 := by
    rw [segM_60_240]
    have := L_ub
    linarith
  refine ⟨segM_60_240_pos, hle, ?_⟩
  have hfl : ⌊segM ((60:ℝ), (0:ℝ)) ((60:ℝ), (240:ℝ)) / 20000000⌋ = 0 := by
    rw [segM_60_240, Int.floor_eq_iff]
    have h1 := L_lb
    have h2 := L_ub
    constructor
    · push_cast
      positivity
    · push_cast
      rw [div_lt_iff (by norm_num : (0:ℝ) < 20000000)]
      linarith
  have hsteps : stepsFor ((60:ℝ), (0:ℝ)) ((60:ℝ), (240:ℝ)) 20000000 = 1 := by
    rw [stepsFor, hfl]
    rfl
  rw [insertedPoints, if_neg (not_le.mpr segM_60_240_pos), hsteps]
  rw [show List.range 1 = [0] from rfl]
  norm_num [interpolate_point]

/-- C6 (amended): for a consecutive pair whose segment length exceeds
`sample_m`, exactly `floor(length/sample_m)` evenly spaced interpolated
points are inserted (and that floor is at least 1).  For pairs with positive
segment length at most `sample_m` the code still inserts one midpoint — the
`max(1, ...)` floor — rather than none, as the counterexample shows. -/
theorem c6_densify_insertion_count (a b : Pt) (s : ℝ)
    (hs : 0 < s) (hgt : s < segM a b) :
    1 ≤ ⌊segM a b / s⌋ ∧
    (insertedPoints a b s).length = ⌊segM a b / s⌋.toNat ∧
    insertedPoints a b s = (List.range ⌊segM a b / s⌋.toNat).map
      (fun k : ℕ => interpolate_point a.1 a.2 b.1 b.2
        (((k : ℝ) + 1) / ((⌊segM a b / s⌋.toNat : ℝ) + 1))) := by
  have hab : 0 < segM a b := lt_trans hs hgt
  have hfl : (1:ℤ) ≤ ⌊segM a b / s⌋ := by
    rw [Int.le_floor]
    push_cast
    rw [one_le_div hs]
    exact le_of_lt hgt
  have hsteps : stepsFor a b s = ⌊segM a b / s⌋.toNat := by
    rw [stepsFor, max_eq_right hfl]
  have hins : insertedPoints a b s = (List.range ⌊segM a b / s⌋.toNat).map
      (fun k : ℕ => interpolate_point a.1 a.2 b.1 b.2
        (((k : ℝ) + 1) / ((⌊segM a b / s⌋.toNat : ℝ) + 1))) := by
    rw [insertedPoints, if_neg (not_le.mpr hab), hsteps]
  refine ⟨hfl, ?_, hins⟩
  rw [hins, List.length_map, List.length_range]

/-- C6 witness: the amended statement at the concrete pair `(60,0)`,
`(60,240)` with spacing 5000000 (segment length about 5705 km). -/
theorem c6_densify_insertion_count_witness :
    1 ≤ ⌊segM ((60:ℝ), (0:ℝ)) ((60:ℝ), (240:ℝ)) / 5000000⌋ ∧
    (insertedPoints ((60:ℝ), (0:ℝ)) ((60:ℝ), (240:ℝ)) 5000000).length
      = ⌊segM ((60:ℝ), (0:ℝ)) ((60:ℝ), (240:ℝ)) / 5000000⌋.toNat ∧
    insertedPoints ((60:ℝ), (0:ℝ)) ((60:ℝ), (240:ℝ)) 5000000
      = (List.range ⌊segM ((60:ℝ), (0:ℝ)) ((60:ℝ), (240:ℝ)) / 5000000⌋.toNat).map
        (fun k : ℕ => interpolate_point ((60:ℝ), (0:ℝ)).1 ((60:ℝ), (0:ℝ)).2
          ((60:ℝ), (240:ℝ)).1 ((60:ℝ), (240:ℝ)).2
          (((k : ℝ) + 1) /
            ((⌊segM ((60:ℝ), (0:ℝ)) ((60:ℝ), (240:ℝ)) / 5000000⌋.toNat : ℝ) + 1))) :=
  c6_densify_insertion_count ((60:ℝ), (0:ℝ)) ((60:ℝ), (240:ℝ)) 5000000
    (by norm_num)
    (by rw [segM_60_240]; have := L_lb; linarith)

/-! ### Penalty helper lemmas -/

theorem levelPenaltyOf_high : levelPenaltyOf "high" = 1200 := by
  rw [levelPenaltyOf, if_pos rfl]
  norm_num

theorem levelPenaltyOf_medium : levelPenaltyOf "medium" = 300 := by
  rw [levelPenaltyOf, if_neg (by decide), if_pos rfl]
  norm_num

theorem levelPenaltyOf_low : levelPenaltyOf "low" = 50 := by
  rw [levelPenaltyOf, if_neg (by decide), if_neg (by decide)]
  norm_num

theorem levelPenaltyOf_pos (lvl : String) : 0 < levelPenaltyOf lvl := by
  rw [levelPenaltyOf]
  split_ifs <;> norm_num

theorem manual_closure_penalty_cases (lat lon : ℝ) (closures : List Pt) :
    manual_closure_penalty lat lon closures = 1200 ∨
    manual_closure_penalty lat lon closures = 0 := by
  rw [manual_closure_penalty]
  split_ifs <;> norm_num

theorem manual_closure_penalty_nonneg (lat lon : ℝ) (closures : List Pt) :
    0 ≤ manual_closure_penalty lat lon closures := by
  rcases manual_closure_penalty_cases lat lon closures with h | h <;> rw [h] <;> norm_num

theorem risk_penalty_fst_nonneg (zones : List RiskZone) (lat lon : ℝ) :
    0 ≤ (risk_penalty_at_point zones lat lon).1 := by
  induction zones with
  | nil => simp [risk_penalty_at_point]
  | cons z rest ih =>
    simp only [risk_penalty_at_point]
    split_ifs
    · have := levelPenaltyOf_pos z.risk_level
      simp only
      linarith
    · exact ih

theorem slope_penalty_nonneg (elev1 elev2 : Option ℝ) (dist_m : ℝ) :
    0 ≤ slope_penalty_from_elevations elev1 elev2 dist_m := by
  cases elev1 with
  | none => norm_num [slope_penalty_from_elevations]
  | some e1 =>
    cases elev2 with
    | none => norm_num [slope_penalty_from_elevations]
    | some e2 =>
      simp only [slope_penalty_from_elevations]
      split_ifs <;> norm_num

theorem segM_nonneg (a b : Pt) : 0 ≤ segM a b := by
  rw [segM]
  have := haversine_nonneg a.1 a.2 b.1 b.2
  linarith

theorem segClosure_nonneg (closures : List Pt) (d : List Pt) (i : ℕ) :
    0 ≤ segClosure closures d i :=
  le_trans (manual_closure_penalty_nonneg _ _ _) (le_max_left _ _)

/-! ### C7: risk penalties accumulate over overlapping zones -/

/-- C7: the risk penalty at a point is the sum, over every zone whose radius
contains the point, of the per-level penalty (not the maximum); each
containing zone is recorded as a match carrying the zone identity, in table
order; and the level penalties are high = 1200 > medium = 300 > low = 50. -/
theorem c7_risk_penalty_accumulates (zones : List RiskZone) (lat lon : ℝ) :
    (risk_penalty_at_point zones lat lon).1 =
      ((zones.map (fun z =>
        if haversine_km lat lon z.center_lat z.center_lon ≤ z.radius_km
        then levelPenaltyOf z.risk_level else 0)).sum) ∧
    (risk_penalty_at_point zones lat lon).2 =
      zones.filterMap (fun z =>
        if haversine_km lat lon z.center_lat z.center_lon ≤ z.radius_km
        then some ⟨z.riskzone_id, z.name, z.risk_level⟩ else none) ∧
    levelPenaltyOf "high" = 1200 ∧ levelPenaltyOf "medium" = 300 ∧
    levelPenaltyOf "low" = 50 ∧
    levelPenaltyOf "low" < levelPenaltyOf "medium" ∧
    levelPenaltyOf "medium" < levelPenaltyOf "high" := by
  refine ⟨?_, ?_, levelPenaltyOf_high, levelPenaltyOf_medium, levelPenaltyOf_low, ?_, ?_⟩
  · induction zones with
    | nil => simp [risk_penalty_at_point]
    | cons z rest ih =>
      simp only [risk_penalty_at_point, List.map_cons, List.sum_cons]
      split_ifs with h
      · simp only
        rw [ih]
      · rw [ih]
        simp
  · induction zones with
    | nil => simp [risk_penalty_at_point]
    | cons z rest ih =>
      simp only [risk_penalty_at_point, List.filterMap_cons]
      split_ifs with h
      · simp only
        rw [ih]
      · rw [ih]
  · rw [levelPenaltyOf_low, levelPenaltyOf_medium]; norm_num
  · rw [levelPenaltyOf_medium, levelPenaltyOf_high]; norm_num

/-! ### Score decomposition -/

theorem foldl_add_eq_sum (l : List ℕ) (f : ℕ → ℝ) (c : ℝ) :
    l.foldl (fun acc i => acc + f i) c = c + (l.map f).sum := by
  induction l generalizing c with
  | nil => simp
  | cons x xs ih =>
    rw [List.foldl_cons, ih, List.map_cons, List.sum_cons]
    ring

theorem sum_map_add (l : List ℕ) (f g : ℕ → ℝ) :
    (l.map (fun i => f i + g i)).sum = (l.map f).sum + (l.map g).sum := by
  induction l with
  | nil => simp
  | cons x xs ih =>
    simp only [List.map_cons, List.sum_cons, ih]
    ring

theorem score_total_decomp (wpen : ℝ → ℝ → ℝ) (emap : ℕ → Option ℝ)
    (zones : List RiskZone) (route_coords : List Pt) (closures : List Pt) :
    (score_route_option wpen emap zones route_coords closures).total_score
      = 0.0001 + nonClosureSum wpen emap zones route_coords
          + closureSum closures route_coords := by
  simp only [score_route_option, nonClosureSum, closureSum]
  rw [foldl_add_eq_sum]
  have hfun : segCost wpen emap zones closures
      (sampledIndices (densify_path route_coords SAMPLE_DISTANCE_M)
        (sample_route_points (densify_path route_coords SAMPLE_DISTANCE_M) 10))
      (densify_path route_coords SAMPLE_DISTANCE_M)
      = fun i =>
        (segBase (densify_path route_coords SAMPLE_DISTANCE_M) i +
         segWeather wpen (sampledIndices (densify_path route_coords SAMPLE_DISTANCE_M)
            (sample_route_points (densify_path route_coords SAMPLE_DISTANCE_M) 10))
            (densify_path route_coords SAMPLE_DISTANCE_M) i +
         segSlope emap (densify_path route_coords SAMPLE_DISTANCE_M) i +
         segRisk zones (densify_path route_coords SAMPLE_DISTANCE_M) i) +
        segClosure closures (densify_path route_coords SAMPLE_DISTANCE_M) i := by
    funext i
    rw [segCost]
    ring
  rw [hfun, sum_map_add]
  ring

theorem nonClosureSum_nonneg (wpen : ℝ → ℝ → ℝ) (emap : ℕ → Option ℝ)
    (zones : List RiskZone) (route_coords : List Pt)
    (hw : ∀ la lo, 0 ≤ wpen la lo) :
    0 ≤ nonClosureSum wpen emap zones route_coords := by
  apply List.sum_nonneg
  intro x hx
  obtain ⟨i, _, rfl⟩ := List.mem_map.mp hx
  have hbase : 0 ≤ segBase (densify_path route_coords SAMPLE_DISTANCE_M) i := by
    rw [segBase]
    have := segM_nonneg ((densify_path route_coords SAMPLE_DISTANCE_M).getD i default)
      ((densify_path route_coords SAMPLE_DISTANCE_M).getD (i+1) default)
    linarith
  have hweather : 0 ≤ segWeather wpen
      (sampledIndices (densify_path route_coords SAMPLE_DISTANCE_M)
        (sample_route_points (densify_path route_coords SAMPLE_DISTANCE_M) 10))
      (densify_path route_coords SAMPLE_DISTANCE_M) i := by
    rw [segWeather]
    split_ifs
    · exact hw _ _
    · exact le_refl 0
  have hslope : 0 ≤ segSlope emap (densify_path route_coords SAMPLE_DISTANCE_M) i :=
    slope_penalty_nonneg _ _ _
  have hrisk : 0 ≤ segRisk zones (densify_path route_coords SAMPLE_DISTANCE_M) i :=
    risk_penalty_fst_nonneg _ _ _
  linarith

theorem closureSum_nonneg (closures : List Pt) (route_coords : List Pt) :
    0 ≤ closureSum closures route_coords := by
  apply List.sum_nonneg
  intro x hx
  obtain ⟨i, _, rfl⟩ := List.mem_map.mp hx
  exact segClosure_nonneg _ _ _

/-! ### C3: total score strictly positive, bounded below by the epsilon -/

/-- C3: for every candidate (including empty and single-point coordinate
lists) and every closure list, assuming the weather oracle only contributes
nonnegative penalties (slope, closure and risk penalties are intrinsically
nonnegative), the total score is at least the epsilon 1e-4, hence strictly
positive. -/
theorem c3_total_score_positive (wpen : ℝ → ℝ → ℝ) (emap : ℕ → Option ℝ)
    (zones : List RiskZone) (route_coords : List Pt) (closures : List Pt)
    (hw : ∀ la lo, 0 ≤ wpen la lo) :
    0.0001 ≤ (score_route_option wpen emap zones route_coords closures).total_score ∧
    0 < (score_route_option wpen emap zones route_coords closures).total_score := by
  rw [score_total_decomp]
  have h1 := nonClosureSum_nonneg wpen emap zones route_coords hw
  have h2 := closureSum_nonneg closures route_coords
  constructor <;> norm_num <;> linarith

/-- C3 witness: the bound at the zero weather oracle, absent elevations, no
risk zones, the empty candidate and no closures. -/
theorem c3_total_score_positive_witness :
    0.0001 ≤ (score_route_option (fun _ _ => 0) (fun _ => none) [] [] []).total_score ∧
    0 < (score_route_option (fun _ _ => 0) (fun _ => none) [] [] []).total_score :=
  c3_total_score_positive (fun _ _ => 0) (fun _ => none) [] [] []
    (fun _ _ => le_refl 0)

/-! ### C5: the synthetic straight-line fallback -/

/-- C5 counterexample: with zero provider routes and `start = end = (0,0)`,
the synthetic fallback candidate has distance 0 but duration 1, not
`distance / 15 = 0`: the code clamps the duration from below with
`max(1.0, ...)`. -/
theorem c5_counterexample :
    routesOrFallback [] 0 0 0 0 = [synthetic_route 0 0 0 0] ∧
    (synthetic_route 0 0 0 0).distance = 0 ∧
    (synthetic_route 0 0 0 0).duration = 1 ∧
    ¬ (synthetic_route 0 0 0 0).duration = (synthetic_route 0 0 0 0).distance / 15 := by
  have hd : (synthetic_route (0:ℝ) 0 0 0).distance = 0 := by
    simp only [synthetic_route]
    rw [haversine_self]
    norm_num
  have hu : (synthetic_route (0:ℝ) 0 0 0).duration = 1 := by
    simp only [synthetic_route]
    rw [haversine_self]
    norm_num
  refine ⟨by simp [routesOrFallback], hd, hu, ?_⟩
  rw [hd, hu]
  norm_num

/-- C5 (amended): when the provider returns zero routes, the engine falls
back to the single synthetic straight-line candidate: 51 points (50
interpolation steps) from start to end, `distance_m` exactly the
great-circle distance times 1000, and `duration_s` equal to
`max(1, distance_m / 15)` — the distance divided by the 15 m/s cruise
speed, clamped from below at one second. -/
theorem c5_fallback_synthetic_route (start_lat start_lon end_lat end_lon : ℝ) :
    routesOrFallback [] start_lat start_lon end_lat end_lon
      = [synthetic_route start_lat start_lon end_lat end_lon] ∧
    (synthetic_route start_lat start_lon end_lat end_lon).distance
      = haversine_km start_lat start_lon end_lat end_lon * 1000 ∧
    (synthetic_route start_lat start_lon end_lat end_lon).duration
      = max 1 (haversine_km start_lat start_lon end_lat end_lon * 1000 / 15) ∧
    (synthetic_route start_lat start_lon end_lat end_lon).geometry.length = 51 ∧
    (synthetic_route start_lat start_lon end_lat end_lon).geometry.head?
      = some (start_lat, start_lon) ∧
    (synthetic_route start_lat start_lon end_lat end_lon).geometry.getLast?
      = some (end_lat, end_lon) := by
  refine ⟨by simp [routesOrFallback], ?_, ?_, ?_, ?_, ?_⟩
  · simp only [synthetic_route]
    norm_num
  · simp only [synthetic_route]
    norm_num
  · simp [synthetic_route]
  · simp only [synthetic_route]
    rw [List.head?_map, show (50:ℕ) + 1 = 51 from rfl]
    rw [show List.range 51 = 0 :: (List.range 50).map Nat.succ from
      List.range_succ_eq_map 50]
    simp only [List.head?_cons, Option.map_some]
    norm_num [Prod.ext_iff]
  · simp only [synthetic_route]
    rw [List.range_succ]
    simp only [List.map_append, List.map_cons, List.map_nil, List.getLast?_concat]
    norm_num [Prod.ext_iff]

/-! ### C9: malformed closure entries -/

/-- C9 counterexample: a request whose closure input contains one malformed
entry (`none`, modelling a non-numeric or missing coordinate) is processed
normally and yields an ordinary routing response, not a client-facing
validation error: the parsing loop silently skips the entry. -/
theorem c9_counterexample :
    (dynamic_reroute_json (fun _ _ => 0) (fun _ => none) [] [none]
      [⟨[((0:ℝ), (0:ℝ))], 5, 7⟩] 0 0 0 0).isOk = true := by
  simp only [dynamic_reroute_json, parse_closures, routesOrFallback]
  norm_num [List.filterMap_cons]
  rfl

/-- C9 (amended): malformed closure entries are silently dropped: the engine
behaves exactly as if only the successfully parsed closure coordinates had
been supplied, and never reports a validation error for them. -/
theorem c9_malformed_closures_skipped (wpen : ℝ → ℝ → ℝ) (emap : ℕ → Option ℝ)
    (zones : List RiskZone) (entries : List (Option Pt))
    (providerRoutes : List Candidate)
    (start_lat start_lon end_lat end_lon : ℝ) :
    dynamic_reroute_json wpen emap zones entries providerRoutes
        start_lat start_lon end_lat end_lon
      = dynamic_reroute_json wpen emap zones ((entries.filterMap id).map some)
          providerRoutes start_lat start_lon end_lat end_lon := by
  have h : ((entries.filterMap id).map some).filterMap id = entries.filterMap id := by
    rw [List.filterMap_map]
    simpa using List.filterMap_some (entries.filterMap id)
  simp only [dynamic_reroute_json, parse_closures, h]

/-! ### Helpers for concrete score evaluations -/

theorem getD_mem {α : Type} (l : List α) (i : ℕ) (d : α) (h : i < l.length) :
    l.getD i d ∈ l := by
  rw [List.getD_eq_getElem l d h]
  exact List.getElem_mem h

theorem segM_self (p : Pt) : segM p p = 0 := by
  rw [segM, haversine_self]
  norm_num

theorem densify_single (p : Pt) (s : ℝ) : densify_path [p] s = [p] := by
  simp [densify_path, densifyAux]

theorem densify_same_pair (p : Pt) (s : ℝ) : densify_path [p, p] s = [p, p] := by
  have h0 : segM p p = 0 := segM_self p
  simp [densify_path, densifyAux, insertedPoints, h0]

theorem nonClosureSum_single (wpen : ℝ → ℝ → ℝ) (emap : ℕ → Option ℝ)
    (zones : List RiskZone) (p : Pt) :
    nonClosureSum wpen emap zones [p] = 0 := by
  simp [nonClosureSum, densify_single]

theorem closureSum_single (closures : List Pt) (p : Pt) :
    closureSum closures [p] = 0 := by
  simp [closureSum, densify_single]

theorem nonClosureSum_pair (p : Pt) :
    nonClosureSum (fun _ _ => 0) (fun _ => none) [] [p, p] = 0 := by
  simp only [nonClosureSum, densify_same_pair]
  rw [show ([p, p] : List Pt).length - 1 = 1 from rfl,
    show List.range 1 = [0] from rfl]
  simp only [List.map_cons, List.map_nil, List.sum_cons, List.sum_nil]
  have h0 : segM p p = 0 := segM_self p
  simp [segBase, segWeather, segSlope, segRisk, slope_penalty_from_elevations,
    risk_penalty_at_point, List.getD_cons_zero, List.getD_cons_succ, h0]
  norm_num

/-! ### C4: closure avoidance scores strictly lower -/

/-- C4 counterexample: two single-point candidates with identical (zero)
base, weather, slope and risk contributions; the first sits exactly on a
supplied closure, the second is far from it; yet their total scores are
equal (both reduce to the epsilon, since a single-point densified path has
no segments), so the closure-avoiding candidate does not score strictly
lower. -/
theorem c4_counterexample :
    densify_path [((0:ℝ), (0:ℝ))] SAMPLE_DISTANCE_M = [((0:ℝ), (0:ℝ))] ∧
    haversine_km 0 0 0 0 ≤ CLOSURE_RADIUS_KM ∧
    densify_path [((60:ℝ), (0:ℝ))] SAMPLE_DISTANCE_M = [((60:ℝ), (0:ℝ))] ∧
    ¬ haversine_km 60 0 0 0 ≤ CLOSURE_RADIUS_KM ∧
    nonClosureSum (fun _ _ => 0) (fun _ => none) [] [((0:ℝ), (0:ℝ))]
      = nonClosureSum (fun _ _ => 0) (fun _ => none) [] [((60:ℝ), (0:ℝ))] ∧
    ¬ (score_route_option (fun _ _ => 0) (fun _ => none) []
          [((60:ℝ), (0:ℝ))] [((0:ℝ), (0:ℝ))]).total_score
        < (score_route_option (fun _ _ => 0) (fun _ => none) []
          [((0:ℝ), (0:ℝ))] [((0:ℝ), (0:ℝ))]).total_score := by
  refine ⟨densify_single _ _, ?_, densify_single _ _, ?_, ?_, ?_⟩
  · rw [haversine_self, CLOSURE_RADIUS_KM]
    norm_num
  · rw [hav_60_origin, CLOSURE_RADIUS_KM]
    have := Real.pi_gt_three
    intro h
    nlinarith
  · rw [nonClosureSum_single, nonClosureSum_single]
  · rw [score_total_decomp, score_total_decomp, nonClosureSum_single,
      nonClosureSum_single, closureSum_single, closureSum_single]
    exact lt_irrefl _

/-- C4 (amended): restricted to candidates whose densified path has at least
one segment (at least two points); if the two candidates have equal
non-closure contributions (base cost, weather, slope, risk), the first has
some densified point within the closure radius of a supplied closure and the
second has none, then the closure-avoiding candidate's total score is
strictly lower.  A point within the radius of some closure always incurs the
fixed penalty 1200, otherwise 0 (and a segment's closure penalty is the
maximum of its two endpoints' penalties, by definition of `segClosure`). -/
theorem c4_closure_avoidance_scores_lower (wpen : ℝ → ℝ → ℝ) (emap : ℕ → Option ℝ)
    (zones : List RiskZone) (closures : List Pt) (r1 r2 : List Pt) (lat lon : ℝ)
    (hNC : nonClosureSum wpen emap zones r1 = nonClosureSum wpen emap zones r2)
    (hlen : 2 ≤ (densify_path r1 SAMPLE_DISTANCE_M).length)
    (hhit : ∃ p ∈ densify_path r1 SAMPLE_DISTANCE_M, ∃ c ∈ closures,
      haversine_km p.1 p.2 c.1 c.2 ≤ CLOSURE_RADIUS_KM)
    (hclean : ∀ p ∈ densify_path r2 SAMPLE_DISTANCE_M, ∀ c ∈ closures,
      ¬ haversine_km p.1 p.2 c.1 c.2 ≤ CLOSURE_RADIUS_KM) :
    (score_route_option wpen emap zones r2 closures).total_score
      < (score_route_option wpen emap zones r1 closures).total_score ∧
    (manual_closure_penalty lat lon closures = 1200 ∨
     manual_closure_penalty lat lon closures = 0) := by
  refine ⟨?_, manual_closure_penalty_cases lat lon closures⟩
  have hCS2 : closureSum closures r2 = 0 := by
    simp only [closureSum]
    apply List.sum_eq_zero
    intro x hx
    obtain ⟨i, hi, rfl⟩ := List.mem_map.mp hx
    have hi' := List.mem_range.mp hi
    have hp : ∀ j, j < (densify_path r2 SAMPLE_DISTANCE_M).length →
        manual_closure_penalty ((densify_path r2 SAMPLE_DISTANCE_M).getD j default).1
          ((densify_path r2 SAMPLE_DISTANCE_M).getD j default).2 closures = 0 := by
      intro j hj
      have hno : ¬ ∃ c ∈ closures,
          haversine_km ((densify_path r2 SAMPLE_DISTANCE_M).getD j default).1
            ((densify_path r2 SAMPLE_DISTANCE_M).getD j default).2 c.1 c.2
            ≤ CLOSURE_RADIUS_KM := by
        intro hex
        obtain ⟨c, hc, hdist⟩ := hex
        exact hclean _ (getD_mem _ j default hj) c hc hdist
      rw [manual_closure_penalty, if_neg hno]
      norm_num
    rw [segClosure, hp i (by omega), hp (i+1) (by omega)]
    exact max_self 0
  have hCS1 : (1200:ℝ) ≤ closureSum closures r1 := by
    obtain ⟨p, hp_mem, c, hc_mem, hdist⟩ := hhit
    have hpen : manual_closure_penalty p.1 p.2 closures = 1200 := by
      rw [manual_closure_penalty, if_pos ⟨c, hc_mem, hdist⟩]
      norm_num
    obtain ⟨⟨j, hj⟩, hget⟩ := List.mem_iff_get.mp hp_mem
    have hgetD : (densify_path r1 SAMPLE_DISTANCE_M).getD j default = p := by
      rw [List.getD_eq_getElem _ default hj]
      rw [List.get_eq_getElem] at hget
      exact hget
    have hnonneg : ∀ x ∈ (List.range ((densify_path r1 SAMPLE_DISTANCE_M).length - 1)).map
        (fun i => segClosure closures (densify_path r1 SAMPLE_DISTANCE_M) i), 0 ≤ x := by
      intro x hx
      obtain ⟨i, _, rfl⟩ := List.mem_map.mp hx
      exact segClosure_nonneg _ _ _
    by_cases hcase : j < (densify_path r1 SAMPLE_DISTANCE_M).length - 1
    · have hterm : (1200:ℝ) ≤ segClosure closures (densify_path r1 SAMPLE_DISTANCE_M) j := by
        rw [segClosure, hgetD, hpen]
        exact le_max_left _ _
      have hmem : segClosure closures (densify_path r1 SAMPLE_DISTANCE_M) j ∈
          (List.range ((densify_path r1 SAMPLE_DISTANCE_M).length - 1)).map
            (fun i => segClosure closures (densify_path r1 SAMPLE_DISTANCE_M) i) :=
        List.mem_map_of_mem _ (List.mem_range.mpr hcase)
      simp only [closureSum]
      exact le_trans hterm (List.single_le_sum hnonneg _ hmem)
    · have hj_eq : j = (densify_path r1 SAMPLE_DISTANCE_M).length - 1 := by omega
      have hk : (densify_path r1 SAMPLE_DISTANCE_M).length - 2 <
          (densify_path r1 SAMPLE_DISTANCE_M).length - 1 := by omega
      have hterm : (1200:ℝ) ≤ segClosure closures (densify_path r1 SAMPLE_DISTANCE_M)
          ((densify_path r1 SAMPLE_DISTANCE_M).length - 2) := by
        rw [segClosure,
          show (densify_path r1 SAMPLE_DISTANCE_M).length - 2 + 1 = j by omega,
          hgetD, hpen]
        exact le_max_right _ _
      have hmem : segClosure closures (densify_path r1 SAMPLE_DISTANCE_M)
          ((densify_path r1 SAMPLE_DISTANCE_M).length - 2) ∈
          (List.range ((densify_path r1 SAMPLE_DISTANCE_M).length - 1)).map
            (fun i => segClosure closures (densify_path r1 SAMPLE_DISTANCE_M) i) :=
        List.mem_map_of_mem _ (List.mem_range.mpr hk)
      simp only [closureSum]
      exact le_trans hterm (List.single_le_sum hnonneg _ hmem)
  rw [score_total_decomp, score_total_decomp, hNC, hCS2]
  linarith

/-- C4 witness: the amended statement at two degenerate two-point candidates
(each a repeated point, so base cost is zero): one at the closure `(0,0)`,
the other at `(60,0)`, with zero weather oracle, no elevations and no risk
zones. -/
theorem c4_closure_avoidance_scores_lower_witness :
    (score_route_option (fun _ _ => 0) (fun _ => none) []
        [((60:ℝ), (0:ℝ)), ((60:ℝ), (0:ℝ))] [((0:ℝ), (0:ℝ))]).total_score
      < (score_route_option (fun _ _ => 0) (fun _ => none) []
        [((0:ℝ), (0:ℝ)), ((0:ℝ), (0:ℝ))] [((0:ℝ), (0:ℝ))]).total_score ∧
    (manual_closure_penalty 0 0 [((0:ℝ), (0:ℝ))] = 1200 ∨
     manual_closure_penalty 0 0 [((0:ℝ), (0:ℝ))] = 0) := by
  apply c4_closure_avoidance_scores_lower (fun _ _ => 0) (fun _ => none) []
    [((0:ℝ), (0:ℝ))] [((0:ℝ), (0:ℝ)), ((0:ℝ), (0:ℝ))]
    [((60:ℝ), (0:ℝ)), ((60:ℝ), (0:ℝ))] 0 0
  · rw [nonClosureSum_pair, nonClosureSum_pair]
  · rw [densify_same_pair]
    norm_num
  · refine ⟨((0:ℝ), (0:ℝ)), ?_, ((0:ℝ), (0:ℝ)), List.mem_singleton.mpr rfl, ?_⟩
    · rw [densify_same_pair]
      exact List.mem_cons_self _ _
    · rw [haversine_self, CLOSURE_RADIUS_KM]
      norm_num
  · intro p hp c hc
    rw [densify_same_pair] at hp
    have hpq : p = ((60:ℝ), (0:ℝ)) := by
      rcases List.mem_cons.mp hp with h | h
      · exact h
      · exact List.mem_singleton.mp h
    have hcq : c = ((0:ℝ), (0:ℝ)) := List.mem_singleton.mp hc
    rw [hpq, hcq]
    simp only
    rw [hav_60_origin, CLOSURE_RADIUS_KM]
    have := Real.pi_gt_three
    intro h
    nlinarith

end SmartConvoy
